import Mathlib

/-!
Verification of the Garmin Connect export script (`garmin_export.py`).

The script is a sequential orchestration of API calls against a fitness
platform client.  We embed it shallowly: API responses are a JSON-like
value type, the client is a record of response functions (a call with the
same arguments yields the same outcome during one session), dates are
integers counting days (the script only ever adds `timedelta(days=k)` and
compares dates, so day arithmetic is faithful), and each collector returns
its document fragment together with the list of processed dates (the
script prints each processed date) and the trace of attempted API calls
(each `safe_call` invocation, in program order).
-/

/-- JSON-like structured values, the opaque payloads returned by the
fitness-platform API collaborator. -/
inductive Json where
  | null : Json
  | bool (b : Bool) : Json
  | num (n : Int) : Json
  | str (s : String) : Json
  | arr (xs : List Json) : Json
  | obj (fs : List (String × Json)) : Json

/-- Python truthiness of a JSON value (`if result:`): `None`, `False`, `0`,
empty string, empty list and empty dict are falsy. -/
def Json.isTruthy : Json → Bool
  | .null => false
  | .bool b => b
  | .num n => n != 0
  | .str s => !s.isEmpty
  | .arr xs => !xs.isEmpty
  | .obj fs => !fs.isEmpty

/-- Truthiness of an optional JSON value (`None` is falsy). -/
def optTruthy : Option Json → Bool
  | none => false
  | some v => v.isTruthy

/-- A single quote character, used by the Python `repr` rendering. -/
def pyQuote : String := String.singleton (Char.ofNat 39)

mutual

/-- Python `str(...)` / `repr` rendering of a parsed JSON payload, as used
by the body-battery substring scan at line 173 of the script
(`summary_str = str(summary)`). -/
def Json.pyStr : Json → String
  | .null => "None"
  | .bool true => "True"
  | .bool false => "False"
  | .num n => toString n
  | .str s => pyQuote ++ s ++ pyQuote
  | .arr xs => "[" ++ pyStrElems xs ++ "]"
  | .obj fs => "\x7b" ++ pyStrFields fs ++ "\x7d"

/-- Comma-separated rendering of list elements. -/
def pyStrElems : List Json → String
  | [] => ""
  | [x] => x.pyStr
  | x :: y :: rest => x.pyStr ++ ", " ++ pyStrElems (y :: rest)

/-- Comma-separated rendering of dict entries. -/
def pyStrFields : List (String × Json) → String
  | [] => ""
  | [(k, v)] => pyQuote ++ k ++ pyQuote ++ ": " ++ v.pyStr
  | (k, v) :: y :: rest => pyQuote ++ k ++ pyQuote ++ ": " ++ v.pyStr ++ ", " ++ pyStrFields (y :: rest)

end

/-- Dictionary lookup `d.get(key)` on a JSON object: `None` when the key is
absent.  (The script applies it only to dict-shaped activity records.) -/
def Json.get : Json → String → Option Json
  | .obj fs, key => fs.lookup key
  | _, _ => none

/-- Substring test over character lists, auxiliary for `strContains`. -/
def charsContain (pat : List Char) : List Char → Bool
  | [] => pat.isEmpty
  | c :: rest => pat.isPrefixOf (c :: rest) || charsContain pat rest

/-- Python substring test `pat in s`. -/
def strContains (s pat : String) : Bool :=
  charsContain pat.toList s.toList

/-- Fault classification used by the `safe_call` log line (lines 77-84):
an exception whose text contains "400" is a bad request, else "404" is
not-found, else "arguments" is invalid parameters, else other. -/
inductive FaultClass where
  | badRequest : FaultClass
  | notFound : FaultClass
  | invalidParams : FaultClass
  | other : FaultClass
deriving DecidableEq

/-- Classification cascade of `safe_call`'s exception handler. -/
def classify_fault (e : String) : FaultClass :=
  if strContains e "400" then .badRequest
  else if strContains e "404" then .notFound
  else if strContains e "arguments" then .invalidParams
  else .other

/-- Outcome of one `safe_call`: the value returned to the caller (`None`
on failure) and the fault classification that was logged (nothing on
success). -/
structure SafeOutcome (α : Type) where
  result : Option α
  logged : Option FaultClass
deriving DecidableEq

/-- `safe_call` (lines 70-85): returns the raw result on success; on any
exception returns `None` after logging the classified fault.  It never
re-raises. -/
def safe_call {α : Type} : Except String α → SafeOutcome α
  | .ok v => ⟨some v, none⟩
  | .error e => ⟨none, some (classify_fault e)⟩

/-- The authenticated client handle: `hasMethod` models `hasattr` probing,
and each operation models one API method.  An operation either returns a
payload or raises, with the exception text carried in `Except.error`. -/
structure Client where
  hasMethod : String → Bool
  get_full_name : Except String Json
  get_unit_system : Except String Json
  get_user_summary : Int → Except String Json
  get_devices : Except String Json
  get_activities : Int → Int → Except String (List Json)
  get_last_activity : Except String Json
  get_activity : Json → Except String Json
  get_stats_and_body : Int → Except String Json
  get_heart_rates : Int → Except String Json
  get_sleep_data : Int → Except String Json
  get_stress_data : Int → Except String Json
  get_steps_data : Int → Except String Json
  get_training_readiness : Int → Except String Json
  get_training_status : Int → Except String Json
  get_rhr_day : Int → Except String Json
  get_body_composition : Int → Except String Json
  get_respiration_data : Int → Except String Json
  get_pulse_ox : Int → Except String Json
  get_hydration_data : Int → Except String Json
  get_weigh_ins : Int → Int → Except String Json
  get_menstrual_calendar_data : Int → Int → Except String Json
  get_pregnancy_summary : Except String Json

/-- The Capability Set: the `api_methods` dictionary built once after
authentication, mapping probed operation names to availability. -/
abbrev Caps := List (String × Bool)

/-- The fixed list of optional operations probed by
`_discover_api_methods` (lines 56-62). -/
def methods_to_check : List String :=
  ["get_daily_steps", "get_body_battery", "get_floors", "get_weigh_ins",
   "get_menstrual_calendar_data", "get_pregnancy_summary", "get_steps_data",
   "get_stress_data", "get_heart_rates", "get_sleep_data", "get_hydration_data",
   "get_respiration_data", "get_pulse_ox", "get_training_readiness",
   "get_training_status", "get_rhr_day", "get_body_composition"]

/-- `_discover_api_methods` (lines 54-68): for each probed name record
whether the client exposes the operation (`hasattr`). -/
def discover_api_methods (c : Client) : Caps :=
  methods_to_check.map fun m => (m, c.hasMethod m)

/-- `self.api_methods.get(name, False)`: dictionary lookup with default
`False`. -/
def api_methods_get (caps : Caps) (m : String) : Bool :=
  (caps.lookup m).getD false

/-- One Sample Point: a (date, payload) pair appended to a metric list. -/
structure Entry where
  date : Int
  data : Json

/-- One body-battery indicator entry (lines 175-177). -/
structure BBEntry where
  date : Int
  found_in_summary : Bool
deriving DecidableEq

/-- The `user_profile` fragment (lines 93-98). -/
structure ProfileFrag where
  full_name : Option Json
  unit_system : Option Json
  user_summary : Option Json
  devices : Option Json

/-- The `activities` fragment with its metadata block (lines 120-130). -/
structure ActivitiesFrag where
  total_requested : Int
  actual_count : Nat
  detailed_sample_count : Nat
  all_activities : Option (List Json)
  last_activity : Option Json
  detailed_sample : List Json

/-- The `daily_health_metrics` fragment (lines 140-153). -/
structure DailyHealthFrag where
  period_start : Int
  period_end : Int
  sampling_strategy : String
  daily_summaries : List Entry
  heart_rate_data : List Entry
  sleep_data : List Entry
  stress_data : List Entry
  steps_data : List Entry
  body_battery_indicators : List BBEntry

/-- The `fitness_metrics` fragment (lines 223-235). -/
structure FitnessFrag where
  period_start : Int
  period_end : Int
  sampling_strategy : String
  training_readiness : List Entry
  training_status : List Entry
  resting_heart_rate : List Entry
  body_composition : List Entry
  weight_measurements : Option Json

/-- The `specialized_health` fragment (lines 296-308).  `womens_health` is
a dictionary holding whatever whole-period results were stored under the
keys "menstrual" and "pregnancy". -/
structure SpecializedFrag where
  period_start : Int
  period_end : Int
  sampling_strategy : String
  respiration_data : List Entry
  pulse_ox_data : List Entry
  hydration_data : List Entry
  womens_health : List (String × Option Json)

/-- Result of one collector: the fragment, the ascending list of dates the
collector processed, and the trace of attempted API-call names in program
order. -/
structure CollectOut (α : Type) where
  frag : α
  processed : List Int
  trace : List String

/-- `export_user_profile` (lines 87-100). -/
def export_user_profile (c : Client) (today : Int) : CollectOut ProfileFrag :=
  { frag :=
      { full_name := (safe_call c.get_full_name).result,
        unit_system := (safe_call c.get_unit_system).result,
        user_summary := (safe_call (c.get_user_summary today)).result,
        devices := (safe_call c.get_devices).result },
    processed := [],
    trace := ["get_full_name", "get_unit_system", "get_user_summary", "get_devices"] }

/-- The detail loop of `export_activities` (lines 112-118): for each of the
first activities, read its `activityId`; when that is truthy attempt the
detail call and keep the result when truthy. -/
def detail_step (c : Client) (activity : Json) : List Json × List String :=
  match activity.get "activityId" with
  | some aid =>
    if aid.isTruthy then
      match (safe_call (c.get_activity aid)).result with
      | some details => (if details.isTruthy then [details] else [], ["get_activity"])
      | none => ([], ["get_activity"])
    else ([], [])
  | none => ([], [])

/-- The whole detail loop over the retained activity records. -/
def fetch_details (c : Client) : List Json → List Json × List String
  | [] => ([], [])
  | activity :: rest =>
    let cur := detail_step c activity
    let restOut := fetch_details c rest
    (cur.1 ++ restOut.1, cur.2 ++ restOut.2)

/-- `export_activities` (lines 102-131): one bulk list call, one
most-recent-activity call, then details for at most the first 5 records. -/
def export_activities (c : Client) (limit : Int) : CollectOut ActivitiesFrag :=
  let activities_list := (safe_call (c.get_activities 0 limit)).result
  let last_activity := (safe_call c.get_last_activity).result
  let detailOut : List Json × List String :=
    match activities_list with
    | some l => if !l.isEmpty then fetch_details c (l.take 5) else ([], [])
    | none => ([], [])
  { frag :=
      { total_requested := limit,
        actual_count := match activities_list with
          | some l => l.length
          | none => 0,
        detailed_sample_count := detailOut.1.length,
        all_activities := activities_list,
        last_activity := last_activity,
        detailed_sample := detailOut.1 },
    processed := [],
    trace := "get_activities" :: "get_last_activity" :: detailOut.2 }

/-- One capability-gated per-date metric fetch, the block repeated at
lines 180-209, 244-273 and 316-337: consult `api_methods.get(name, False)`,
and only when available attempt the call and append a Sample Point when the
result is truthy. -/
def gated_fetch (caps : Caps) (name : String) (call : Except String Json)
    (date : Int) : List Entry × List String :=
  if api_methods_get caps name then
    (match (safe_call call).result with
     | some v => if v.isTruthy then [⟨date, v⟩] else []
     | none => [],
     [name])
  else ([], [])

/-- The per-date lists accumulated by the daily-health loop. -/
structure DailyLists where
  daily_summaries : List Entry
  heart_rate_data : List Entry
  sleep_data : List Entry
  stress_data : List Entry
  steps_data : List Entry
  body_battery_indicators : List BBEntry

/-- The empty accumulator of the daily-health loop. -/
def emptyDailyLists : DailyLists := ⟨[], [], [], [], [], []⟩

/-- Pointwise concatenation of daily-health accumulators. -/
def DailyLists.append (a b : DailyLists) : DailyLists :=
  ⟨a.daily_summaries ++ b.daily_summaries,
   a.heart_rate_data ++ b.heart_rate_data,
   a.sleep_data ++ b.sleep_data,
   a.stress_data ++ b.stress_data,
   a.steps_data ++ b.steps_data,
   a.body_battery_indicators ++ b.body_battery_indicators⟩

/-- The body of the daily-health loop for one retained date (lines
162-209): the ungated combined stats-and-body summary (with the
body-battery substring scan of its textual rendering), then four gated
metrics. -/
def process_day (c : Client) (caps : Caps) (date : Int) : DailyLists × List String :=
  let summary := (safe_call (c.get_stats_and_body date)).result
  let dsbb : List Entry × List BBEntry :=
    match summary with
    | some s =>
      if s.isTruthy then
        ([⟨date, s⟩],
         if strContains s.pyStr "bodyBattery" || strContains s.pyStr "bodyBatteryValuesArray"
         then [⟨date, true⟩] else [])
      else ([], [])
    | none => ([], [])
  let hr := gated_fetch caps "get_heart_rates" (c.get_heart_rates date) date
  let sl := gated_fetch caps "get_sleep_data" (c.get_sleep_data date) date
  let st := gated_fetch caps "get_stress_data" (c.get_stress_data date) date
  let sp := gated_fetch caps "get_steps_data" (c.get_steps_data date) date
  (⟨dsbb.1, hr.1, sl.1, st.1, sp.1, dsbb.2⟩,
   "get_stats_and_body" :: (hr.2 ++ sl.2 ++ st.2 ++ sp.2))

/-- Result of one strided loop: accumulated lists, processed dates and
call trace. -/
structure LoopOut (α : Type) where
  lists : α
  processed : List Int
  trace : List String

/-- The daily-health while loop (lines 157-212), by recursion on the
number of remaining iterations: each iteration handles one calendar day,
and the body runs only when `day_counter` is even.  The Python loop
`while current <= end` with unit steps performs exactly
`(end - current + 1)` iterations (none when `current > end`). -/
def daily_loop (c : Client) (caps : Caps) (current : Int) (day_counter : Nat) :
    Nat → LoopOut DailyLists
  | 0 => ⟨emptyDailyLists, [], []⟩
  | n + 1 =>
    let step : DailyLists × List Int × List String :=
      if day_counter % 2 = 0 then
        let p := process_day c caps current
        (p.1, [current], p.2)
      else (emptyDailyLists, [], [])
    let rest := daily_loop c caps (current + 1) (day_counter + 1) n
    ⟨step.1.append rest.lists, step.2.1 ++ rest.processed, step.2.2 ++ rest.trace⟩

/-- Number of iterations of a unit-stride `while current <= stop` loop. -/
def daily_iterations (start stop : Int) : Nat := (stop - start + 1).toNat

/-- `export_daily_health_metrics` (lines 133-214). -/
def export_daily_health_metrics (c : Client) (caps : Caps) (today days_back : Int) :
    CollectOut DailyHealthFrag :=
  let start := today - days_back
  let out := daily_loop c caps start 0 (daily_iterations start today)
  { frag :=
      { period_start := start,
        period_end := today,
        sampling_strategy := "every_2nd_day",
        daily_summaries := out.lists.daily_summaries,
        heart_rate_data := out.lists.heart_rate_data,
        sleep_data := out.lists.sleep_data,
        stress_data := out.lists.stress_data,
        steps_data := out.lists.steps_data,
        body_battery_indicators := out.lists.body_battery_indicators },
    processed := out.processed,
    trace := out.trace }

/-- The per-date lists accumulated by the fitness loop. -/
structure FitnessLists where
  training_readiness : List Entry
  training_status : List Entry
  resting_heart_rate : List Entry
  body_composition : List Entry

/-- The empty accumulator of the fitness loop. -/
def emptyFitnessLists : FitnessLists := ⟨[], [], [], []⟩

/-- Number of iterations of a `while current <= stop` loop with stride 7:
`(stop - start).toNat / 7 + 1` dates are visited when `start <= stop`,
none otherwise. -/
def weekly_iterations (start stop : Int) : Nat :=
  if start ≤ stop then (stop - start).toNat / 7 + 1 else 0

/-- The fitness while loop (lines 239-275), stride 7: four gated metrics
per retained date. -/
def fitness_loop (c : Client) (caps : Caps) (current : Int) :
    Nat → LoopOut FitnessLists
  | 0 => ⟨emptyFitnessLists, [], []⟩
  | n + 1 =>
    let tr := gated_fetch caps "get_training_readiness" (c.get_training_readiness current) current
    let ts := gated_fetch caps "get_training_status" (c.get_training_status current) current
    let rhr := gated_fetch caps "get_rhr_day" (c.get_rhr_day current) current
    let bc := gated_fetch caps "get_body_composition" (c.get_body_composition current) current
    let rest := fitness_loop c caps (current + 7) n
    ⟨⟨tr.1 ++ rest.lists.training_readiness,
      ts.1 ++ rest.lists.training_status,
      rhr.1 ++ rest.lists.resting_heart_rate,
      bc.1 ++ rest.lists.body_composition⟩,
     current :: rest.processed,
     (tr.2 ++ ts.2 ++ rhr.2 ++ bc.2) ++ rest.trace⟩

/-- `export_fitness_metrics` (lines 216-287): the weekly loop followed by
one gated whole-period weight call whose result (even `None`) is stored
under the always-present `weight_measurements` key. -/
def export_fitness_metrics (c : Client) (caps : Caps) (today days_back : Int) :
    CollectOut FitnessFrag :=
  let start := today - days_back
  let out := fitness_loop c caps start (weekly_iterations start today)
  let weight : Option Json × List String :=
    if api_methods_get caps "get_weigh_ins" then
      ((safe_call (c.get_weigh_ins start today)).result, ["get_weigh_ins"])
    else (none, [])
  { frag :=
      { period_start := start,
        period_end := today,
        sampling_strategy := "weekly",
        training_readiness := out.lists.training_readiness,
        training_status := out.lists.training_status,
        resting_heart_rate := out.lists.resting_heart_rate,
        body_composition := out.lists.body_composition,
        weight_measurements := weight.1 },
    processed := out.processed,
    trace := out.trace ++ weight.2 }

/-- The per-date lists accumulated by the specialized-health loop. -/
structure SpecializedLists where
  respiration_data : List Entry
  pulse_ox_data : List Entry
  hydration_data : List Entry

/-- The empty accumulator of the specialized-health loop. -/
def emptySpecializedLists : SpecializedLists := ⟨[], [], []⟩

/-- The specialized-health while loop (lines 311-339), stride 7: three
gated metrics per retained date. -/
def specialized_loop (c : Client) (caps : Caps) (current : Int) :
    Nat → LoopOut SpecializedLists
  | 0 => ⟨emptySpecializedLists, [], []⟩
  | n + 1 =>
    let rp := gated_fetch caps "get_respiration_data" (c.get_respiration_data current) current
    let po := gated_fetch caps "get_pulse_ox" (c.get_pulse_ox current) current
    let hy := gated_fetch caps "get_hydration_data" (c.get_hydration_data current) current
    let rest := specialized_loop c caps (current + 7) n
    ⟨⟨rp.1 ++ rest.lists.respiration_data,
      po.1 ++ rest.lists.pulse_ox_data,
      hy.1 ++ rest.lists.hydration_data⟩,
     current :: rest.processed,
     (rp.2 ++ po.2 ++ hy.2) ++ rest.trace⟩

/-- `export_specialized_health` (lines 289-351): the weekly loop followed
by two gated whole-period calls whose results (even `None`) are stored
under the keys "menstrual" and "pregnancy" of the `womens_health` dict. -/
def export_specialized_health (c : Client) (caps : Caps) (today days_back : Int) :
    CollectOut SpecializedFrag :=
  let start := today - days_back
  let out := specialized_loop c caps start (weekly_iterations start today)
  let menstrual : List (String × Option Json) × List String :=
    if api_methods_get caps "get_menstrual_calendar_data" then
      ([("menstrual", (safe_call (c.get_menstrual_calendar_data start today)).result)],
       ["get_menstrual_calendar_data"])
    else ([], [])
  let pregnancy : List (String × Option Json) × List String :=
    if api_methods_get caps "get_pregnancy_summary" then
      ([("pregnancy", (safe_call c.get_pregnancy_summary).result)],
       ["get_pregnancy_summary"])
    else ([], [])
  { frag :=
      { period_start := start,
        period_end := today,
        sampling_strategy := "weekly",
        respiration_data := out.lists.respiration_data,
        pulse_ox_data := out.lists.pulse_ox_data,
        hydration_data := out.lists.hydration_data,
        womens_health := menstrual.1 ++ pregnancy.1 },
    processed := out.processed,
    trace := out.trace ++ menstrual.2 ++ pregnancy.2 }

/-- The merged document handed to the Context Synthesizer: top-level keys
with their fragments; a key missing from the dict is `none`.  (In a full
run every key is present.) -/
structure AllData where
  user_profile : Option ProfileFrag
  activities : Option ActivitiesFrag
  daily_health_metrics : Option DailyHealthFrag
  fitness_metrics : Option FitnessFrag
  specialized_health : Option SpecializedFrag

/-- The `llm_analysis_context` fragment (lines 356-384).  The three
instruction lists are fixed text; the remaining fields are derived from
the merged document. -/
structure LLMContext where
  export_timestamp : Int
  data_overview : List (String × String)
  available_metrics : List String
  suggested_analyses : List String
  data_quality_notes : List String
  primary_focus : List String
  data_format_notes : List String
  recommended_approach : List String

/-- The truthiness check at line 389: the `activities` key is present and
its `all_activities` value is truthy (a present, non-empty list). -/
def activities_nonempty (d : AllData) : Bool :=
  match d.activities with
  | some a =>
    match a.all_activities with
    | some l => !l.isEmpty
    | none => false
  | none => false

/-- The length of the recorded activities list (reached only when the
check at line 389 passed). -/
def activities_count (d : AllData) : Nat :=
  match d.activities with
  | some a =>
    match a.all_activities with
    | some l => l.length
    | none => 0
  | none => 0

/-- The `data_overview` entries built by the presence checks at lines
389-391: only the activities count is ever recorded. -/
def derived_overview (d : AllData) : List (String × String) :=
  if activities_nonempty d then
    [("activities", toString (activities_count d) ++ " activities recorded")]
  else []

/-- The `available_metrics` tags contributed by the activities check
(line 392). -/
def activity_metric_tags (d : AllData) : List String :=
  if activities_nonempty d then ["activity_patterns"] else []

/-- The `available_metrics` tags contributed by the daily-health checks
(lines 395-407), in append order. -/
def daily_health_metric_tags (d : AllData) : List String :=
  match d.daily_health_metrics with
  | some h =>
    (if !h.heart_rate_data.isEmpty then ["heart_rate_data"] else []) ++
    (if !h.sleep_data.isEmpty then ["sleep_patterns"] else []) ++
    (if !h.stress_data.isEmpty then ["stress_levels"] else [])
  | none => []

/-- The `available_metrics` entries, in the append order of lines
389-407: the activities check, then the three daily-health checks. -/
def derived_metrics (d : AllData) : List String :=
  activity_metric_tags d ++ daily_health_metric_tags d

/-- The `suggested_analyses` tags contributed by the activities check
(line 393). -/
def activity_analysis_tags (d : AllData) : List String :=
  if activities_nonempty d then ["activity_trends_and_performance_analysis"] else []

/-- The `suggested_analyses` tags contributed by the daily-health checks
(lines 395-407), in append order. -/
def daily_health_analysis_tags (d : AllData) : List String :=
  match d.daily_health_metrics with
  | some h =>
    (if !h.heart_rate_data.isEmpty then ["heart_rate_zone_analysis"] else []) ++
    (if !h.sleep_data.isEmpty then ["sleep_quality_and_recovery_assessment"] else []) ++
    (if !h.stress_data.isEmpty then ["stress_impact_on_performance"] else [])
  | none => []

/-- The `suggested_analyses` tags contributed by the fitness checks
(lines 409-414), in append order. -/
def fitness_analysis_tags (d : AllData) : List String :=
  match d.fitness_metrics with
  | some f =>
    (if !f.training_readiness.isEmpty then ["training_readiness_optimization"] else []) ++
    (if !f.resting_heart_rate.isEmpty then ["cardiovascular_fitness_trends"] else [])
  | none => []

/-- The `suggested_analyses` entries, in the append order of lines
389-414: activities, the three daily-health checks, then the two fitness
checks. -/
def derived_analyses (d : AllData) : List String :=
  activity_analysis_tags d ++ daily_health_analysis_tags d ++ fitness_analysis_tags d

/-- `create_llm_analysis_context` (lines 353-416): the export timestamp
(`datetime.now()`, passed as `now`), the static instruction lists, and the
three data-dependent lists derived by presence checks on the merged
document.  The function reads `all_data` and returns a fresh fragment; it
never writes into `all_data`. -/
def create_llm_analysis_context (all_data : AllData) (now : Int) : LLMContext :=
  { export_timestamp := now,
    data_overview := derived_overview all_data,
    available_metrics := derived_metrics all_data,
    suggested_analyses := derived_analyses all_data,
    data_quality_notes := [],
    primary_focus :=
      ["Identify patterns in activity and health data",
       "Analyze correlations between sleep, stress, and performance",
       "Assess training load and recovery patterns",
       "Provide actionable health and fitness insights"],
    data_format_notes :=
      ["All dates in YYYY-MM-DD ISO format",
       "Some metrics sampled (every 2nd/7th day) to optimize file size",
       "Missing data points are normal - not all metrics available daily",
       "Look for trends rather than absolute values"],
    recommended_approach :=
      ["Start with data_overview to understand available metrics",
       "Focus on activities and daily_health_metrics for main insights",
       "Cross-reference sleep and stress with activity performance",
       "Provide specific, actionable recommendations"] }

/-- `authenticate` (lines 30-52): the stored-token login is tried first;
on any failure the credential login is tried; the method reports success
exactly when one of the two succeeded. -/
def authenticate (stored_ok cred_ok : Bool) : Bool :=
  stored_ok || cred_ok

/-- The collection phase of `export_complete_dataset` (lines 431-449):
the five collectors in fixed order (profile, activities with limit 300,
daily health, fitness, specialized), then the Context Synthesizer over the
accumulated document.  Returns the full document and the concatenated call
trace. -/
def collect_all (c : Client) (caps : Caps) (today days_back now : Int) :
    (AllData × LLMContext) × List String :=
  let profile := export_user_profile c today
  let acts := export_activities c 300
  let daily := export_daily_health_metrics c caps today days_back
  let fit := export_fitness_metrics c caps today days_back
  let sp := export_specialized_health c caps today days_back
  let all_data : AllData :=
    { user_profile := some profile.frag,
      activities := some acts.frag,
      daily_health_metrics := some daily.frag,
      fitness_metrics := some fit.frag,
      specialized_health := some sp.frag }
  ((all_data, create_llm_analysis_context all_data now),
   profile.trace ++ acts.trace ++ daily.trace ++ fit.trace ++ sp.trace)

/-- What the export run reported to its caller: the filename on success,
`failed` (Python `False`) otherwise. -/
inductive ExportResult where
  | failed : ExportResult
  | completed (filename : String) : ExportResult
deriving DecidableEq

/-- State of the output file after the run: no file, a file created by
`open(...)` but whose `json.dump` did not finish, or a fully written
file. -/
inductive FileState where
  | noFile : FileState
  | truncatedFile (name : String) : FileState
  | completeFile (name : String) : FileState
deriving DecidableEq

/-- Whether the serialization step (lines 455-456) runs to completion.
`json.dump` can raise after `open` has already created the file; which
happens is decided by data outside the embedded semantics, so it is a
parameter here. -/
inductive SerOutcome where
  | ok : SerOutcome
  | failsMidway : SerOutcome

/-- The phase skeleton of `export_complete_dataset` (lines 418-481): the
authentication guard, then the `try` block covering collection and
serialization.  The collection phase is abstracted to an outcome — Safe
Invoker contains API faults, so only a coding fault can escape, which is
outside the embedded semantics.  A collection-phase fault is caught at
line 479 before `open` ever runs, so no file exists; a serialization
fault is caught at the same handler but `open` (line 455) has already
created the file, which is left behind truncated. -/
def run_export_phases (auth_ok : Bool) (collection : Except String AllData)
    (ser : SerOutcome) (filename : String) : ExportResult × FileState :=
  if !auth_ok then (.failed, .noFile)
  else
    match collection with
    | .error _ => (.failed, .noFile)
    | .ok _ =>
      match ser with
      | .ok => (.completed filename, .completeFile filename)
      | .failsMidway => (.failed, .truncatedFile filename)

/-- `export_complete_dataset` (lines 418-481) with the concrete (total)
collectors: authentication failure returns `False` before any collector
runs; otherwise the collection phase runs and the file is written unless
serialization fails midway.  The third component is the trace of collector
API calls (empty when no collector ran). -/
def export_complete_dataset (c : Client) (today days_back now : Int)
    (stored_ok cred_ok : Bool) (ser : SerOutcome) (filename : String) :
    ExportResult × FileState × List String :=
  if !authenticate stored_ok cred_ok then (.failed, .noFile, [])
  else
    let out := collect_all c (discover_api_methods c) today days_back now
    match ser with
    | .ok => (.completed filename, .completeFile filename, out.2)
    | .failsMidway => (.failed, .truncatedFile filename, out.2)

/-- The dates visited by the daily-health loop: one candidate per
iteration, retained when the running counter is even. -/
def dailyDates (current : Int) (k : Nat) : Nat → List Int
  | 0 => []
  | n + 1 => (if k % 2 = 0 then [current] else []) ++ dailyDates (current + 1) (k + 1) n

/-- The dates visited by the stride-7 loops: every iteration retains its
date and advances by 7 days. -/
def weeklyDates (current : Int) : Nat → List Int
  | 0 => []
  | n + 1 => current :: weeklyDates (current + 7) n

theorem daily_loop_processed (c : Client) (caps : Caps) :
    ∀ (n : Nat) (current : Int) (k : Nat),
      (daily_loop c caps current k n).processed = dailyDates current k n := by
  intro n
  induction n with
  | zero => intro current k; rfl
  | succ n ih =>
    intro current k
    simp only [daily_loop, dailyDates]
    split <;> simp [ih]

theorem fitness_loop_processed (c : Client) (caps : Caps) :
    ∀ (n : Nat) (current : Int),
      (fitness_loop c caps current n).processed = weeklyDates current n := by
  intro n
  induction n with
  | zero => intro current; rfl
  | succ n ih => intro current; simp [fitness_loop, weeklyDates, ih]

theorem specialized_loop_processed (c : Client) (caps : Caps) :
    ∀ (n : Nat) (current : Int),
      (specialized_loop c caps current n).processed = weeklyDates current n := by
  intro n
  induction n with
  | zero => intro current; rfl
  | succ n ih => intro current; simp [specialized_loop, weeklyDates, ih]

theorem dailyDates_mem :
    ∀ (n : Nat) (current : Int) (k : Nat) (d : Int), d ∈ dailyDates current k n →
      current ≤ d ∧ d < current + n := by
  intro n
  induction n with
  | zero => intro current k d hd; simp [dailyDates] at hd
  | succ n ih =>
    intro current k d hd
    simp only [dailyDates, List.mem_append] at hd
    rcases hd with hd | hd
    · have : d = current := by
        by_cases hk : k % 2 = 0 <;> simp [hk] at hd
        · exact hd
      omega
    · have := ih (current + 1) (k + 1) d hd
      omega

theorem weeklyDates_mem :
    ∀ (n : Nat) (current : Int) (d : Int), d ∈ weeklyDates current n →
      ∃ i : Nat, i < n ∧ d = current + 7 * i := by
  intro n
  induction n with
  | zero => intro current d hd; simp [weeklyDates] at hd
  | succ n ih =>
    intro current d hd
    simp only [weeklyDates, List.mem_cons] at hd
    rcases hd with rfl | hd
    · exact ⟨0, by omega, by omega⟩
    · obtain ⟨i, hi, rfl⟩ := ih (current + 7) d hd
      exact ⟨i + 1, by omega, by push_cast; ring⟩

theorem dailyDates_head (current : Int) (k : Nat) (hk : k % 2 = 0) (n : Nat) :
    (dailyDates current k (n + 1)).head? = some current := by
  simp [dailyDates, hk]

theorem dailyDates_cons (current : Int) (k : Nat) (hk : k % 2 = 0) (n : Nat) :
    dailyDates current k (n + 2) = current :: dailyDates (current + 2) (k + 2) n := by
  have h1 : ¬ (k + 1) % 2 = 0 := by omega
  simp [dailyDates, hk, h1]
  ring_nf

theorem dailyDates_chain :
    ∀ (n : Nat) (current : Int) (k : Nat), k % 2 = 0 →
      List.Chain' (fun a b => b = a + 2) (dailyDates current k n) := by
  intro n
  induction n using Nat.strong_induction_on with
  | _ n ih =>
    intro current k hk
    match n with
    | 0 => simp [dailyDates]
    | 1 => simp [dailyDates, hk]
    | m + 2 =>
      rw [dailyDates_cons current k hk, List.chain'_cons']
      refine ⟨?_, ih m (by omega) (current + 2) (k + 2) (by omega)⟩
      intro y hy
      cases m with
      | zero => simp [dailyDates] at hy
      | succ m' =>
        rw [dailyDates_head (current + 2) (k + 2) (by omega) m'] at hy
        simp at hy
        omega

theorem weeklyDates_chain :
    ∀ (n : Nat) (current : Int),
      List.Chain' (fun a b => b = a + 7) (weeklyDates current n) := by
  intro n
  induction n with
  | zero => intro current; simp [weeklyDates]
  | succ n ih =>
    intro current
    rw [weeklyDates, List.chain'_cons']
    refine ⟨?_, ih (current + 7)⟩
    intro y hy
    cases n with
    | zero => simp [weeklyDates] at hy
    | succ n' =>
      simp only [weeklyDates, List.head?_cons] at hy
      simp at hy
      omega

theorem gated_fetch_mem {caps : Caps} {name : String} {call : Except String Json}
    {date : Int} {e : Entry} :
    e ∈ (gated_fetch caps name call date).1 ↔
      api_methods_get caps name = true ∧
      ∃ v, call = Except.ok v ∧ v.isTruthy = true ∧ e = ⟨date, v⟩ := by
  unfold gated_fetch
  split
  · cases hc : call with
    | ok v =>
      simp only [safe_call]
      by_cases hv : v.isTruthy <;> simp_all
    | error msg => simp_all [safe_call]
  · simp_all

theorem gated_fetch_trace {caps : Caps} {name : String} {call : Except String Json}
    {date : Int} {op : String} :
    op ∈ (gated_fetch caps name call date).2 →
      op = name ∧ api_methods_get caps name = true := by
  unfold gated_fetch
  split <;> simp_all

/-- The condition under which the body-battery indicator for a date is
recorded: the combined daily summary call succeeded with a truthy value
whose textual rendering contains one of the two scanned substrings. -/
def bbCond (c : Client) (d : Int) : Prop :=
  ∃ v, c.get_stats_and_body d = Except.ok v ∧ v.isTruthy = true ∧
    (strContains v.pyStr "bodyBattery" || strContains v.pyStr "bodyBatteryValuesArray") = true

theorem process_day_ds {c : Client} {caps : Caps} {date : Int} {e : Entry} :
    e ∈ (process_day c caps date).1.daily_summaries ↔
      ∃ v, c.get_stats_and_body date = Except.ok v ∧ v.isTruthy = true ∧ e = ⟨date, v⟩ := by
  unfold process_day
  cases hc : c.get_stats_and_body date with
  | ok v =>
    simp only [safe_call]
    by_cases hv : v.isTruthy <;>
      by_cases hb : (strContains v.pyStr "bodyBattery" || strContains v.pyStr "bodyBatteryValuesArray") = true <;>
      simp_all
  | error msg => simp_all [safe_call]

theorem process_day_bb {c : Client} {caps : Caps} {date : Int} {b : BBEntry} :
    b ∈ (process_day c caps date).1.body_battery_indicators ↔
      b = ⟨date, true⟩ ∧ bbCond c date := by
  unfold process_day bbCond
  cases hc : c.get_stats_and_body date with
  | ok v =>
    simp only [safe_call]
    by_cases hv : v.isTruthy <;>
      by_cases hb : (strContains v.pyStr "bodyBattery" || strContains v.pyStr "bodyBatteryValuesArray") = true <;>
      simp_all
  | error msg => simp_all [safe_call]

theorem process_day_trace {c : Client} {caps : Caps} {date : Int} {op : String} :
    op ∈ (process_day c caps date).2 →
      op = "get_stats_and_body" ∨ api_methods_get caps op = true := by
  intro hop
  simp only [process_day, List.mem_cons, List.mem_append] at hop
  rcases hop with rfl | (((h | h) | h) | h)
  · exact Or.inl rfl
  all_goals
    obtain ⟨rfl, hav⟩ := gated_fetch_trace h
    exact Or.inr hav

theorem daily_loop_trace (c : Client) (caps : Caps) :
    ∀ (n : Nat) (current : Int) (k : Nat) (op : String),
      op ∈ (daily_loop c caps current k n).trace →
      op = "get_stats_and_body" ∨ api_methods_get caps op = true := by
  intro n
  induction n with
  | zero => intro current k op hop; simp [daily_loop] at hop
  | succ n ih =>
    intro current k op hop
    simp only [daily_loop] at hop
    rcases (List.mem_append.mp hop) with h | h
    · by_cases hk : k % 2 = 0
      · simp only [hk, if_true] at h
        exact process_day_trace h
      · simp [hk] at h
    · exact ih (current + 1) (k + 1) op h

theorem fitness_loop_trace (c : Client) (caps : Caps) :
    ∀ (n : Nat) (current : Int) (op : String),
      op ∈ (fitness_loop c caps current n).trace →
      api_methods_get caps op = true := by
  intro n
  induction n with
  | zero => intro current op hop; simp [fitness_loop] at hop
  | succ n ih =>
    intro current op hop
    simp only [fitness_loop, List.mem_append] at hop
    rcases hop with (((h | h) | h) | h) | h
    all_goals first
      | (obtain ⟨rfl, hav⟩ := gated_fetch_trace h; exact hav)
      | exact ih (current + 7) op h

theorem specialized_loop_trace (c : Client) (caps : Caps) :
    ∀ (n : Nat) (current : Int) (op : String),
      op ∈ (specialized_loop c caps current n).trace →
      api_methods_get caps op = true := by
  intro n
  induction n with
  | zero => intro current op hop; simp [specialized_loop] at hop
  | succ n ih =>
    intro current op hop
    simp only [specialized_loop, List.mem_append] at hop
    rcases hop with ((h | h) | h) | h
    all_goals first
      | (obtain ⟨rfl, hav⟩ := gated_fetch_trace h; exact hav)
      | exact ih (current + 7) op h

theorem detail_step_trace (c : Client) (a : Json) (op : String)
    (hop : op ∈ (detail_step c a).2) : op = "get_activity" := by
  unfold detail_step at hop
  rcases ha : a.get "activityId" with _ | aid
  · simp [ha] at hop
  · rw [ha] at hop
    by_cases ht : aid.isTruthy
    · rcases hr : (safe_call (c.get_activity aid)).result with _ | de <;> simp_all
    · simp [ht] at hop

theorem detail_step_len (c : Client) (a : Json) :
    (detail_step c a).1.length ≤ 1 ∧ (detail_step c a).2.length ≤ 1 := by
  unfold detail_step
  rcases a.get "activityId" with _ | aid
  · simp
  · by_cases ht : aid.isTruthy
    · rcases hr : (safe_call (c.get_activity aid)).result with _ | de
      · simp [ht, hr]
      · by_cases hd : de.isTruthy <;> simp [ht, hr, hd]
    · simp [ht]

theorem fetch_details_trace (c : Client) :
    ∀ (l : List Json) (op : String), op ∈ (fetch_details c l).2 → op = "get_activity" := by
  intro l
  induction l with
  | nil => intro op hop; simp [fetch_details] at hop
  | cons a rest ih =>
    intro op hop
    simp only [fetch_details, List.mem_append] at hop
    rcases hop with h | h
    · exact detail_step_trace c a op h
    · exact ih op h

theorem fetch_details_len (c : Client) :
    ∀ l : List Json,
      (fetch_details c l).1.length ≤ l.length ∧ (fetch_details c l).2.length ≤ l.length := by
  intro l
  induction l with
  | nil => simp [fetch_details]
  | cons a rest ih =>
    have hstep := detail_step_len c a
    simp only [fetch_details, List.length_append, List.length_cons]
    omega

theorem daily_loop_bb (c : Client) (caps : Caps) :
    ∀ (n : Nat) (current : Int) (k : Nat) (b : BBEntry),
      b ∈ (daily_loop c caps current k n).lists.body_battery_indicators ↔
        ∃ d, d ∈ (daily_loop c caps current k n).processed ∧ b = ⟨d, true⟩ ∧ bbCond c d := by
  intro n
  induction n with
  | zero => intro current k b; simp [daily_loop, emptyDailyLists]
  | succ n ih =>
    intro current k b
    by_cases hk : k % 2 = 0
    · simp only [daily_loop, hk, if_true, DailyLists.append, emptyDailyLists,
        List.mem_append, List.mem_singleton, ih, process_day_bb]
      constructor
      · rintro (⟨rfl, hc⟩ | ⟨d, hd, rfl, hc⟩)
        · exact ⟨current, Or.inl (by simp), rfl, hc⟩
        · exact ⟨d, Or.inr hd, rfl, hc⟩
      · rintro ⟨d, hd, rfl, hc⟩
        rcases hd with hd | hd
        · subst hd
          exact Or.inl ⟨rfl, hc⟩
        · exact Or.inr ⟨d, hd, rfl, hc⟩
    · simp [daily_loop, hk, DailyLists.append, emptyDailyLists, ih]

theorem daily_loop_ds (c : Client) (caps : Caps) :
    ∀ (n : Nat) (current : Int) (k : Nat) (e : Entry),
      e ∈ (daily_loop c caps current k n).lists.daily_summaries ↔
        ∃ d, d ∈ (daily_loop c caps current k n).processed ∧
          ∃ v, c.get_stats_and_body d = Except.ok v ∧ v.isTruthy = true ∧ e = ⟨d, v⟩ := by
  intro n
  induction n with
  | zero => intro current k e; simp [daily_loop, emptyDailyLists]
  | succ n ih =>
    intro current k e
    by_cases hk : k % 2 = 0
    · simp only [daily_loop, hk, if_true, DailyLists.append, emptyDailyLists,
        List.mem_append, List.mem_singleton, ih, process_day_ds]
      constructor
      · rintro (⟨v, hv, ht, rfl⟩ | ⟨d, hd, v, hv, ht, rfl⟩)
        · exact ⟨current, Or.inl (by simp), v, hv, ht, rfl⟩
        · exact ⟨d, Or.inr hd, v, hv, ht, rfl⟩
      · rintro ⟨d, hd, v, hv, ht, rfl⟩
        rcases hd with hd | hd
        · subst hd
          exact Or.inl ⟨v, hv, ht, rfl⟩
        · exact Or.inr ⟨d, hd, v, hv, ht, rfl⟩
    · simp [daily_loop, hk, DailyLists.append, emptyDailyLists, ih]

/-- All Sample Point dates carried by the daily-health accumulator. -/
def DailyLists.dates (l : DailyLists) : List Int :=
  l.daily_summaries.map Entry.date ++ l.heart_rate_data.map Entry.date ++
  l.sleep_data.map Entry.date ++ l.stress_data.map Entry.date ++
  l.steps_data.map Entry.date ++ l.body_battery_indicators.map BBEntry.date

/-- All Sample Point dates carried by the fitness accumulator. -/
def FitnessLists.dates (l : FitnessLists) : List Int :=
  l.training_readiness.map Entry.date ++ l.training_status.map Entry.date ++
  l.resting_heart_rate.map Entry.date ++ l.body_composition.map Entry.date

/-- All Sample Point dates carried by the specialized-health
accumulator. -/
def SpecializedLists.dates (l : SpecializedLists) : List Int :=
  l.respiration_data.map Entry.date ++ l.pulse_ox_data.map Entry.date ++
  l.hydration_data.map Entry.date

theorem gated_fetch_date {caps : Caps} {name : String} {call : Except String Json}
    {date d : Int} (hd : d ∈ (gated_fetch caps name call date).1.map Entry.date) :
    d = date := by
  simp only [List.mem_map] at hd
  obtain ⟨e, he, rfl⟩ := hd
  obtain ⟨-, v, -, -, rfl⟩ := gated_fetch_mem.mp he
  rfl

theorem process_day_date {c : Client} {caps : Caps} {date d : Int}
    (hd : d ∈ (process_day c caps date).1.dates) : d = date := by
  simp only [DailyLists.dates, List.mem_append] at hd
  rcases hd with ((((h | h) | h) | h) | h) | h
  · simp only [List.mem_map] at h
    obtain ⟨e, he, rfl⟩ := h
    obtain ⟨v, -, -, rfl⟩ := process_day_ds.mp he
    rfl
  · exact gated_fetch_date h
  · exact gated_fetch_date h
  · exact gated_fetch_date h
  · exact gated_fetch_date h
  · simp only [List.mem_map] at h
    obtain ⟨b, hb, rfl⟩ := h
    obtain ⟨rfl, -⟩ := process_day_bb.mp hb
    rfl

theorem daily_loop_dates (c : Client) (caps : Caps) :
    ∀ (n : Nat) (current : Int) (k : Nat) (d : Int),
      d ∈ (daily_loop c caps current k n).lists.dates →
      d ∈ (daily_loop c caps current k n).processed := by
  intro n
  induction n with
  | zero => intro current k d hd; simp [daily_loop, emptyDailyLists, DailyLists.dates] at hd
  | succ n ih =>
    intro current k d hd
    by_cases hk : k % 2 = 0
    · simp only [daily_loop, hk, if_true, DailyLists.append, DailyLists.dates,
        List.map_append, List.mem_append] at hd
      simp only [daily_loop, hk, if_true, List.mem_append, List.mem_singleton]
      rcases hd with (((((h | h) | (h | h)) | (h | h)) | (h | h)) | (h | h)) | (h | h)
      all_goals first
        | (left
           exact process_day_date (by
             simp only [DailyLists.dates, List.mem_append]
             tauto))
        | (right
           exact ih (current + 1) (k + 1) d (by
             simp only [DailyLists.dates, List.mem_append]
             tauto))
    · simp only [daily_loop, hk, if_false, DailyLists.append, emptyDailyLists,
        DailyLists.dates, List.map_append, List.mem_append, List.map_nil,
        List.nil_append, List.not_mem_nil, false_or] at hd
      simp only [daily_loop, hk, if_false, List.nil_append]
      exact ih (current + 1) (k + 1) d (by
        simp only [DailyLists.dates, List.mem_append]
        tauto)

theorem fitness_loop_dates (c : Client) (caps : Caps) :
    ∀ (n : Nat) (current : Int) (d : Int),
      d ∈ (fitness_loop c caps current n).lists.dates →
      d ∈ (fitness_loop c caps current n).processed := by
  intro n
  induction n with
  | zero => intro current d hd; simp [fitness_loop, emptyFitnessLists, FitnessLists.dates] at hd
  | succ n ih =>
    intro current d hd
    simp only [fitness_loop, FitnessLists.dates, List.map_append, List.mem_append] at hd
    simp only [fitness_loop, List.mem_cons]
    rcases hd with ((((h | h) | (h | h)) | (h | h)) | (h | h))
    all_goals first
      | (left; exact gated_fetch_date h)
      | (right
         exact ih (current + 7) d (by
           simp only [FitnessLists.dates, List.mem_append]
           tauto))

theorem specialized_loop_dates (c : Client) (caps : Caps) :
    ∀ (n : Nat) (current : Int) (d : Int),
      d ∈ (specialized_loop c caps current n).lists.dates →
      d ∈ (specialized_loop c caps current n).processed := by
  intro n
  induction n with
  | zero => intro current d hd; simp [specialized_loop, emptySpecializedLists, SpecializedLists.dates] at hd
  | succ n ih =>
    intro current d hd
    simp only [specialized_loop, SpecializedLists.dates, List.map_append, List.mem_append] at hd
    simp only [specialized_loop, List.mem_cons]
    rcases hd with (((h | h) | (h | h)) | (h | h))
    all_goals first
      | (left; exact gated_fetch_date h)
      | (right
         exact ih (current + 7) d (by
           simp only [SpecializedLists.dates, List.mem_append]
           tauto))

theorem weeklyDates_head (current : Int) (n : Nat) :
    (weeklyDates current (n + 1)).head? = some current := rfl

/-- All Sample Point dates of the daily-health fragment. -/
def DailyHealthFrag.sample_dates (f : DailyHealthFrag) : List Int :=
  f.daily_summaries.map Entry.date ++ f.heart_rate_data.map Entry.date ++
  f.sleep_data.map Entry.date ++ f.stress_data.map Entry.date ++
  f.steps_data.map Entry.date ++ f.body_battery_indicators.map BBEntry.date

/-- All Sample Point dates of the fitness fragment. -/
def FitnessFrag.sample_dates (f : FitnessFrag) : List Int :=
  f.training_readiness.map Entry.date ++ f.training_status.map Entry.date ++
  f.resting_heart_rate.map Entry.date ++ f.body_composition.map Entry.date

/-- All Sample Point dates of the specialized-health fragment. -/
def SpecializedFrag.sample_dates (f : SpecializedFrag) : List Int :=
  f.respiration_data.map Entry.date ++ f.pulse_ox_data.map Entry.date ++
  f.hydration_data.map Entry.date

/-- Claim C6: for every date d strictly outside the computed range
[today - N days, today], no Sample Point dated d appears in any fragment
produced by any section collector.  (The profile and activities fragments
carry no dated Sample Points; the three strided collectors are covered
below.) -/
theorem samples_within_range (c : Client) (caps : Caps) (today days_back d : Int)
    (hd : d < today - days_back ∨ today < d) :
    d ∉ (export_daily_health_metrics c caps today days_back).frag.sample_dates ∧
    d ∉ (export_fitness_metrics c caps today days_back).frag.sample_dates ∧
    d ∉ (export_specialized_health c caps today days_back).frag.sample_dates := by
  refine ⟨?_, ?_, ?_⟩
  · intro hmem
    have h1 : d ∈ (daily_loop c caps (today - days_back) 0
        (daily_iterations (today - days_back) today)).lists.dates := hmem
    have h2 := daily_loop_dates c caps _ _ _ d h1
    rw [daily_loop_processed] at h2
    have h3 := dailyDates_mem _ _ _ d h2
    simp only [daily_iterations] at h3
    omega
  · intro hmem
    have h1 : d ∈ (fitness_loop c caps (today - days_back)
        (weekly_iterations (today - days_back) today)).lists.dates := hmem
    have h2 := fitness_loop_dates c caps _ _ d h1
    rw [fitness_loop_processed] at h2
    obtain ⟨i, hi, rfl⟩ := weeklyDates_mem _ _ _ h2
    simp only [weekly_iterations] at hi
    split at hi
    · have hq := Nat.div_mul_le_self (today - (today - days_back)).toNat 7
      omega
    · omega
  · intro hmem
    have h1 : d ∈ (specialized_loop c caps (today - days_back)
        (weekly_iterations (today - days_back) today)).lists.dates := hmem
    have h2 := specialized_loop_dates c caps _ _ d h1
    rw [specialized_loop_processed] at h2
    obtain ⟨i, hi, rfl⟩ := weeklyDates_mem _ _ _ h2
    simp only [weekly_iterations] at hi
    split at hi
    · have hq := Nat.div_mul_le_self (today - (today - days_back)).toNat 7
      omega
    · omega

/-- Claim C5: every date-strided fragment retains dates starting exactly
at the range start, with consecutive retained dates exactly k days apart
(k = 2 for daily health, k = 7 for fitness and specialized health). -/
theorem stride_dates_spec (c : Client) (caps : Caps) (today days_back : Int)
    (h : 0 ≤ days_back) :
    ((export_daily_health_metrics c caps today days_back).processed.head? =
        some (today - days_back) ∧
      List.Chain' (fun a b => b = a + 2)
        (export_daily_health_metrics c caps today days_back).processed) ∧
    ((export_fitness_metrics c caps today days_back).processed.head? =
        some (today - days_back) ∧
      List.Chain' (fun a b => b = a + 7)
        (export_fitness_metrics c caps today days_back).processed) ∧
    ((export_specialized_health c caps today days_back).processed.head? =
        some (today - days_back) ∧
      List.Chain' (fun a b => b = a + 7)
        (export_specialized_health c caps today days_back).processed) := by
  refine ⟨?_, ?_, ?_⟩
  · have hp : (export_daily_health_metrics c caps today days_back).processed =
        dailyDates (today - days_back) 0 (daily_iterations (today - days_back) today) :=
      daily_loop_processed c caps _ _ _
    have hn : daily_iterations (today - days_back) today = days_back.toNat + 1 := by
      simp only [daily_iterations]
      omega
    rw [hp, hn]
    exact ⟨dailyDates_head _ 0 rfl _, dailyDates_chain _ _ 0 rfl⟩
  · have hp : (export_fitness_metrics c caps today days_back).processed =
        weeklyDates (today - days_back) (weekly_iterations (today - days_back) today) :=
      fitness_loop_processed c caps _ _
    have hn : weekly_iterations (today - days_back) today =
        (today - (today - days_back)).toNat / 7 + 1 := by
      simp only [weekly_iterations]
      rw [if_pos (by omega)]
    rw [hp, hn]
    exact ⟨weeklyDates_head _ _, weeklyDates_chain _ _⟩
  · have hp : (export_specialized_health c caps today days_back).processed =
        weeklyDates (today - days_back) (weekly_iterations (today - days_back) today) :=
      specialized_loop_processed c caps _ _
    have hn : weekly_iterations (today - days_back) today =
        (today - (today - days_back)).toNat / 7 + 1 := by
      simp only [weekly_iterations]
      rw [if_pos (by omega)]
    rw [hp, hn]
    exact ⟨weeklyDates_head _ _, weeklyDates_chain _ _⟩

/-- The operations of the guaranteed base capabilities: the four
user-profile calls and the three activities calls, attempted on every run
without consulting the Capability Set. -/
def base_operations : List String :=
  ["get_full_name", "get_unit_system", "get_user_summary", "get_devices",
   "get_activities", "get_last_activity", "get_activity"]

theorem export_user_profile_trace (c : Client) (today : Int) (op : String)
    (h : op ∈ (export_user_profile c today).trace) : op ∈ base_operations := by
  simp only [export_user_profile, List.mem_cons, List.not_mem_nil, or_false] at h
  rcases h with rfl | rfl | rfl | rfl <;> decide

theorem export_activities_trace (c : Client) (limit : Int) (op : String)
    (h : op ∈ (export_activities c limit).trace) : op ∈ base_operations := by
  simp only [export_activities, List.mem_cons] at h
  rcases h with rfl | rfl | h
  · decide
  · decide
  · rcases hal : (safe_call (c.get_activities 0 limit)).result with _ | l
    · rw [hal] at h
      simp at h
    · rw [hal] at h
      by_cases he : !l.isEmpty
      · simp only [he, if_true] at h
        rw [fetch_details_trace c (l.take 5) op h]
        decide
      · simp [he] at h

theorem export_daily_trace (c : Client) (caps : Caps) (today days_back : Int)
    (op : String) (h : op ∈ (export_daily_health_metrics c caps today days_back).trace) :
    op = "get_stats_and_body" ∨ api_methods_get caps op = true :=
  daily_loop_trace c caps _ _ _ op h

theorem export_fitness_trace (c : Client) (caps : Caps) (today days_back : Int)
    (op : String) (h : op ∈ (export_fitness_metrics c caps today days_back).trace) :
    api_methods_get caps op = true := by
  have h2 : op ∈ (fitness_loop c caps (today - days_back)
      (weekly_iterations (today - days_back) today)).trace ∨
      op ∈ (if api_methods_get caps "get_weigh_ins" then ["get_weigh_ins"] else
        ([] : List String)) := by
    simp only [export_fitness_metrics, List.mem_append] at h
    rcases h with h | h
    · exact Or.inl h
    · right
      split at h <;> simp_all
  rcases h2 with h2 | h2
  · exact fitness_loop_trace c caps _ _ op h2
  · rcases hw : api_methods_get caps "get_weigh_ins" with _ | _ <;> rw [hw] at h2 <;>
      simp_all

theorem export_specialized_trace (c : Client) (caps : Caps) (today days_back : Int)
    (op : String) (h : op ∈ (export_specialized_health c caps today days_back).trace) :
    api_methods_get caps op = true := by
  have h2 : op ∈ (specialized_loop c caps (today - days_back)
      (weekly_iterations (today - days_back) today)).trace ∨
      op ∈ (if api_methods_get caps "get_menstrual_calendar_data" then
        ["get_menstrual_calendar_data"] else ([] : List String)) ∨
      op ∈ (if api_methods_get caps "get_pregnancy_summary" then
        ["get_pregnancy_summary"] else ([] : List String)) := by
    simp only [export_specialized_health, List.mem_append] at h
    rcases h with (h | h) | h
    · exact Or.inl h
    · refine Or.inr (Or.inl ?_)
      split at h <;> simp_all
    · refine Or.inr (Or.inr ?_)
      split at h <;> simp_all
  rcases h2 with h2 | h2 | h2
  · exact specialized_loop_trace c caps _ _ op h2
  · rcases hm : api_methods_get caps "get_menstrual_calendar_data" with _ | _ <;>
      rw [hm] at h2 <;> simp_all
  · rcases hp : api_methods_get caps "get_pregnancy_summary" with _ | _ <;>
      rw [hp] at h2 <;> simp_all

/-- Claim C1 (amended): every API call attempted during the collection
phase is either a guaranteed base operation (profile, activities), the
combined daily stats-and-body summary — which the daily-health collector
always attempts without consulting the Capability Set — or an operation
the Capability Set marks available.  In particular no capability-gated
daily-health, fitness or specialized-health metric call occurs for an
operation marked unavailable. -/
theorem collector_calls_capability_gated (c : Client) (caps : Caps)
    (today days_back now : Int) (op : String)
    (hop : op ∈ (collect_all c caps today days_back now).2) :
    op ∈ base_operations ∨ op = "get_stats_and_body" ∨
      api_methods_get caps op = true := by
  have h : op ∈ (export_user_profile c today).trace ∨
      op ∈ (export_activities c 300).trace ∨
      op ∈ (export_daily_health_metrics c caps today days_back).trace ∨
      op ∈ (export_fitness_metrics c caps today days_back).trace ∨
      op ∈ (export_specialized_health c caps today days_back).trace := by
    simp only [collect_all, List.mem_append] at hop
    tauto
  rcases h with h | h | h | h | h
  · exact Or.inl (export_user_profile_trace c today op h)
  · exact Or.inl (export_activities_trace c 300 op h)
  · exact Or.inr (export_daily_trace c caps today days_back op h)
  · exact Or.inr (Or.inr (export_fitness_trace c caps today days_back op h))
  · exact Or.inr (Or.inr (export_specialized_trace c caps today days_back op h))

/-- A stub client: every operation raises and no optional operation is
exposed, so the prober marks every probed capability unavailable. -/
def noneClient : Client :=
  { hasMethod := fun _ => false,
    get_full_name := .error "",
    get_unit_system := .error "",
    get_user_summary := fun _ => .error "",
    get_devices := .error "",
    get_activities := fun _ _ => .error "",
    get_last_activity := .error "",
    get_activity := fun _ => .error "",
    get_stats_and_body := fun _ => .error "",
    get_heart_rates := fun _ => .error "",
    get_sleep_data := fun _ => .error "",
    get_stress_data := fun _ => .error "",
    get_steps_data := fun _ => .error "",
    get_training_readiness := fun _ => .error "",
    get_training_status := fun _ => .error "",
    get_rhr_day := fun _ => .error "",
    get_body_composition := fun _ => .error "",
    get_respiration_data := fun _ => .error "",
    get_pulse_ox := fun _ => .error "",
    get_hydration_data := fun _ => .error "",
    get_weigh_ins := fun _ _ => .error "",
    get_menstrual_calendar_data := fun _ _ => .error "",
    get_pregnancy_summary := .error "" }

/-- Counterexample to claim C1 as stated: on a one-day run, the
daily-health collector attempts the combined `get_stats_and_body` call
although the Capability Set built by the prober does not mark it available
(the prober never probes it) and it is not one of the base profile or
activities operations. -/
theorem daily_summary_call_not_gated :
    "get_stats_and_body" ∈
      (collect_all noneClient (discover_api_methods noneClient) 0 0 0).2 ∧
    "get_stats_and_body" ∉ base_operations ∧
    api_methods_get (discover_api_methods noneClient) "get_stats_and_body" = false :=
  ⟨by decide, by decide, by decide⟩

/-- Witness for the amended claim C1 at a concrete input. -/
theorem collector_calls_capability_gated_witness :
    "get_full_name" ∈
      (collect_all noneClient (discover_api_methods noneClient) 1 0 0).2 ∧
    ("get_full_name" ∈ base_operations ∨ "get_full_name" = "get_stats_and_body" ∨
      api_methods_get (discover_api_methods noneClient) "get_full_name" = true) :=
  ⟨by decide,
   collector_calls_capability_gated noneClient (discover_api_methods noneClient)
     1 0 0 "get_full_name" (by decide)⟩

/-- Claim C2: the Safe Invoker returns the raw result unchanged on
success; on any fault it returns an absent result (never re-raising — it
is a total function) and logs the classification cascade: bad-request if
the fault text contains "400", else not-found if it contains "404", else
invalid-parameters if it contains "arguments", else other. -/
theorem safe_call_spec (v : Json) (e : String) :
    safe_call (Except.ok v) = ⟨some v, none⟩ ∧
    (safe_call (Except.error e : Except String Json)).result = none ∧
    (strContains e "400" = true →
      (safe_call (Except.error e : Except String Json)).logged =
        some FaultClass.badRequest) ∧
    (strContains e "400" = false → strContains e "404" = true →
      (safe_call (Except.error e : Except String Json)).logged =
        some FaultClass.notFound) ∧
    (strContains e "400" = false → strContains e "404" = false →
      strContains e "arguments" = true →
      (safe_call (Except.error e : Except String Json)).logged =
        some FaultClass.invalidParams) ∧
    (strContains e "400" = false → strContains e "404" = false →
      strContains e "arguments" = false →
      (safe_call (Except.error e : Except String Json)).logged =
        some FaultClass.other) := by
  refine ⟨rfl, rfl, ?_, ?_, ?_, ?_⟩
  · intro h1
    simp [safe_call, classify_fault, h1]
  · intro h1 h2
    simp [safe_call, classify_fault, h1, h2]
  · intro h1 h2 h3
    simp [safe_call, classify_fault, h1, h2, h3]
  · intro h1 h2 h3
    simp [safe_call, classify_fault, h1, h2, h3]

/-- Witness for claim C2: an operation raising an error containing "404"
yields an absent result classified as not-found. -/
theorem safe_call_spec_witness :
    (safe_call (Except.error "HTTP error 404" : Except String Json)).result = none ∧
    (safe_call (Except.error "HTTP error 404" : Except String Json)).logged =
      some FaultClass.notFound :=
  ⟨(safe_call_spec Json.null "HTTP error 404").2.1,
   (safe_call_spec Json.null "HTTP error 404").2.2.2.1 (by decide) (by decide)⟩

/-- A merged document with every top-level key absent, used as a concrete
collection outcome. -/
def emptyAllData : AllData := ⟨none, none, none, none, none⟩

/-- Claim C3 (amended): a fault escaping the collector phase aborts the
run, reports failure and leaves no output file (the file is only created
by `open` during serialization); a serialization fault also aborts the
run and reports failure, but `open` has already created the output file,
which may be left behind truncated. -/
theorem export_fault_aborts_run (auth_ok : Bool)
    (collection : Except String AllData) (filename : String) :
    (∀ e, collection = Except.error e → ∀ ser : SerOutcome,
      run_export_phases auth_ok collection ser filename =
        (ExportResult.failed, FileState.noFile)) ∧
    (∀ a, collection = Except.ok a → auth_ok = true →
      run_export_phases auth_ok collection SerOutcome.failsMidway filename =
        (ExportResult.failed, FileState.truncatedFile filename)) := by
  constructor
  · rintro e rfl ser
    cases auth_ok <;> rfl
  · rintro a rfl rfl
    rfl

/-- Counterexample to claim C3 as stated: when serialization fails midway
the run is reported as failed, yet the output file created by `open` is
left behind — the file state is not "no file written". -/
theorem serialization_fault_leaves_file :
    run_export_phases true (Except.ok emptyAllData) SerOutcome.failsMidway
        "garmin_data.json" =
      (ExportResult.failed, FileState.truncatedFile "garmin_data.json") ∧
    FileState.truncatedFile "garmin_data.json" ≠ FileState.noFile :=
  ⟨rfl, by decide⟩

/-- Witness for the amended claim C3 at concrete inputs. -/
theorem export_fault_aborts_run_witness :
    run_export_phases true (Except.error "collector coding fault" : Except String AllData)
        SerOutcome.ok "out.json" = (ExportResult.failed, FileState.noFile) ∧
    run_export_phases true (Except.ok emptyAllData) SerOutcome.failsMidway "out.json" =
      (ExportResult.failed, FileState.truncatedFile "out.json") :=
  ⟨(export_fault_aborts_run true (Except.error "collector coding fault") "out.json").1
      "collector coding fault" rfl SerOutcome.ok,
   (export_fault_aborts_run true (Except.ok emptyAllData) "out.json").2
      emptyAllData rfl rfl⟩

/-- Claim C4: when authentication fails on both the stored-token path and
the credential path, the Export Driver reports failure before any section
collector runs (the call trace is empty) and no output file is written. -/
theorem auth_failure_aborts_export (c : Client) (today days_back now : Int)
    (ser : SerOutcome) (filename : String) :
    authenticate false false = false ∧
    export_complete_dataset c today days_back now false false ser filename =
      (ExportResult.failed, FileState.noFile, []) :=
  ⟨rfl, rfl⟩

theorem sleep_metric_tag_iff (d : AllData) :
    "sleep_patterns" ∈ daily_health_metric_tags d ↔
      ∃ h, d.daily_health_metrics = some h ∧ h.sleep_data ≠ [] := by
  unfold daily_health_metric_tags
  cases hdh : d.daily_health_metrics with
  | none => simp
  | some h =>
    by_cases h1 : h.heart_rate_data.isEmpty <;>
    by_cases h2 : h.sleep_data.isEmpty <;>
    by_cases h3 : h.stress_data.isEmpty <;>
      simp_all [List.isEmpty_iff]

theorem sleep_analysis_tag_iff (d : AllData) :
    "sleep_quality_and_recovery_assessment" ∈ daily_health_analysis_tags d ↔
      ∃ h, d.daily_health_metrics = some h ∧ h.sleep_data ≠ [] := by
  unfold daily_health_analysis_tags
  cases hdh : d.daily_health_metrics with
  | none => simp
  | some h =>
    by_cases h1 : h.heart_rate_data.isEmpty <;>
    by_cases h2 : h.sleep_data.isEmpty <;>
    by_cases h3 : h.stress_data.isEmpty <;>
      simp_all [List.isEmpty_iff]

theorem sleep_metric_not_in_act (d : AllData) :
    "sleep_patterns" ∉ activity_metric_tags d := by
  unfold activity_metric_tags
  split <;> simp

theorem sleep_analysis_not_in_act (d : AllData) :
    "sleep_quality_and_recovery_assessment" ∉ activity_analysis_tags d := by
  unfold activity_analysis_tags
  split <;> simp

theorem sleep_analysis_not_in_fitness (d : AllData) :
    "sleep_quality_and_recovery_assessment" ∉ fitness_analysis_tags d := by
  unfold fitness_analysis_tags
  cases d.fitness_metrics with
  | none => simp
  | some f =>
    by_cases h1 : f.training_readiness.isEmpty <;>
    by_cases h2 : f.resting_heart_rate.isEmpty <;>
      simp_all

/-- Claim C7: the Context Synthesizer is deterministic and idempotent —
for a fixed merged document two invocations differ at most in the
declared export timestamp (in the embedding it is a pure function of the
document and the clock, and it returns a fresh fragment without writing
into the merged document) — and its data-dependent lists are fixed
presence checks on known fragment keys: non-empty
`daily_health_metrics.sleep_data` contributes exactly the tags
"sleep_patterns" and "sleep_quality_and_recovery_assessment". -/
theorem llm_context_deterministic (d : AllData) (t1 t2 : Int) :
    create_llm_analysis_context d t1 =
      { create_llm_analysis_context d t2 with export_timestamp := t1 } ∧
    ("sleep_patterns" ∈ (create_llm_analysis_context d t1).available_metrics ↔
      ∃ h, d.daily_health_metrics = some h ∧ h.sleep_data ≠ []) ∧
    ("sleep_quality_and_recovery_assessment" ∈
        (create_llm_analysis_context d t1).suggested_analyses ↔
      ∃ h, d.daily_health_metrics = some h ∧ h.sleep_data ≠ []) := by
  refine ⟨rfl, ?_, ?_⟩
  · show "sleep_patterns" ∈ derived_metrics d ↔ _
    rw [derived_metrics, List.mem_append]
    rw [iff_iff_implies_and_implies]
    constructor
    · rintro (h | h)
      · exact absurd h (sleep_metric_not_in_act d)
      · exact (sleep_metric_tag_iff d).mp h
    · intro h
      exact Or.inr ((sleep_metric_tag_iff d).mpr h)
  · show "sleep_quality_and_recovery_assessment" ∈ derived_analyses d ↔ _
    rw [derived_analyses, List.mem_append, List.mem_append]
    rw [iff_iff_implies_and_implies]
    constructor
    · rintro ((h | h) | h)
      · exact absurd h (sleep_analysis_not_in_act d)
      · exact (sleep_analysis_tag_iff d).mp h
      · exact absurd h (sleep_analysis_not_in_fitness d)
    · intro h
      exact Or.inl (Or.inr ((sleep_analysis_tag_iff d).mpr h))

theorem export_activities_shape (c : Client) (limit : Int) :
    (export_activities c limit).frag.detailed_sample.length ≤ 5 ∧
    (export_activities c limit).trace =
      "get_activities" :: "get_last_activity" :: (export_activities c limit).trace.drop 2 ∧
    (∀ op ∈ (export_activities c limit).trace.drop 2, op = "get_activity") ∧
    ((export_activities c limit).trace.drop 2).length ≤ 5 := by
  unfold export_activities
  rcases hal : (safe_call (c.get_activities 0 limit)).result with _ | l
  · simp
  · by_cases he : !l.isEmpty
    · simp only [hal, he, if_true]
      have hlen := fetch_details_len c (l.take 5)
      have htake : (l.take 5).length ≤ 5 := by
        simp [List.length_take]
      refine ⟨by omega, rfl, ?_, by simpa using by omega⟩
      simpa using fun op hop => fetch_details_trace c (l.take 5) op hop
    · simp [hal, he]

/-- Claim C8: the activities collector fetches up to a configurable limit
of records in one bulk call (the full export passes 300) plus the single
most-recent activity, fetches a detailed record for at most the first 5
returned activities, and its metadata block records the requested limit,
the actual number of returned records (0 when the list call yields
nothing) and the number of detailed records fetched. -/
theorem activities_collector_spec (c : Client) (limit : Int) (caps : Caps)
    (today days_back now : Int) :
    (export_activities c limit).frag.total_requested = limit ∧
    (export_activities c limit).frag.actual_count =
      (match (export_activities c limit).frag.all_activities with
       | some l => l.length
       | none => 0) ∧
    (export_activities c limit).frag.detailed_sample_count =
      (export_activities c limit).frag.detailed_sample.length ∧
    (export_activities c limit).frag.detailed_sample.length ≤ 5 ∧
    (export_activities c limit).trace.count "get_activities" = 1 ∧
    (export_activities c limit).trace.count "get_last_activity" = 1 ∧
    (export_activities c limit).trace.count "get_activity" ≤ 5 ∧
    (collect_all c caps today days_back now).1.1.activities =
      some (export_activities c 300).frag := by
  obtain ⟨hle, htr, hdet, hdlen⟩ := export_activities_shape c limit
  have hno1 : "get_activities" ∉ (export_activities c limit).trace.drop 2 := by
    intro hmem
    exact absurd (hdet _ hmem) (by decide)
  have hno2 : "get_last_activity" ∉ (export_activities c limit).trace.drop 2 := by
    intro hmem
    exact absurd (hdet _ hmem) (by decide)
  refine ⟨rfl, rfl, rfl, hle, ?_, ?_, ?_, rfl⟩
  · rw [htr]
    simp [List.count_cons, List.count_eq_zero.mpr hno1]
  · rw [htr]
    simp [List.count_cons, List.count_eq_zero.mpr hno2]
  · rw [htr]
    have hcle := List.count_le_length "get_activity" ((export_activities c limit).trace.drop 2)
    simp [List.count_cons]
    omega

/-- Claim C9: whole-period results live under fixed keys even when
absent: the fitness fragment's always-present `weight_measurements` key
holds a null value both when the `get_weigh_ins` capability is
unavailable and when the ranged call fails, and when the
menstrual-calendar or pregnancy capability is available but its call
fails, `womens_health` maps the corresponding key to a null
placeholder. -/
theorem whole_period_null_keys (c : Client) (caps : Caps) (today days_back : Int) :
    (api_methods_get caps "get_weigh_ins" = false →
      (export_fitness_metrics c caps today days_back).frag.weight_measurements = none) ∧
    (∀ e, c.get_weigh_ins (today - days_back) today = Except.error e →
      (export_fitness_metrics c caps today days_back).frag.weight_measurements = none) ∧
    (api_methods_get caps "get_menstrual_calendar_data" = true →
      ∀ e, c.get_menstrual_calendar_data (today - days_back) today = Except.error e →
      ((export_specialized_health c caps today days_back).frag.womens_health).lookup
        "menstrual" = some none) ∧
    (api_methods_get caps "get_pregnancy_summary" = true →
      ∀ e, c.get_pregnancy_summary = Except.error e →
      ((export_specialized_health c caps today days_back).frag.womens_health).lookup
        "pregnancy" = some none) := by
  refine ⟨?_, ?_, ?_, ?_⟩
  · intro hcap
    simp [export_fitness_metrics, hcap]
  · intro e he
    by_cases hcap : api_methods_get caps "get_weigh_ins" <;>
      simp [export_fitness_metrics, hcap, he, safe_call]
  · intro hcap e he
    by_cases hp : api_methods_get caps "get_pregnancy_summary" <;>
      simp [export_specialized_health, hcap, hp, he, safe_call, List.lookup]
  · intro hcap e he
    by_cases hm : api_methods_get caps "get_menstrual_calendar_data" <;>
      simp [export_specialized_health, hcap, hm, he, safe_call, List.lookup]

/-- Claim C10: a body-battery indicator entry for a processed date d is
recorded iff the combined daily summary call for d returned a truthy
result whose textual rendering contains "bodyBattery" or
"bodyBatteryValuesArray"; every recorded entry carries
`found_in_summary = true` and its date also appears among the
`daily_summaries` dates. -/
theorem body_battery_indicator_spec (c : Client) (caps : Caps) (today days_back : Int) :
    (∀ b ∈ (export_daily_health_metrics c caps today days_back).frag.body_battery_indicators,
      b.found_in_summary = true ∧
      b.date ∈ (export_daily_health_metrics c caps today days_back).frag.daily_summaries.map
          Entry.date) ∧
    (∀ d ∈ (export_daily_health_metrics c caps today days_back).processed,
      ((⟨d, true⟩ : BBEntry) ∈
          (export_daily_health_metrics c caps today days_back).frag.body_battery_indicators ↔
        bbCond c d)) := by
  have hbb : ∀ b : BBEntry,
      b ∈ (export_daily_health_metrics c caps today days_back).frag.body_battery_indicators ↔
      ∃ d, d ∈ (export_daily_health_metrics c caps today days_back).processed ∧
        b = ⟨d, true⟩ ∧ bbCond c d :=
    fun b => daily_loop_bb c caps _ _ _ b
  have hds : ∀ e : Entry,
      e ∈ (export_daily_health_metrics c caps today days_back).frag.daily_summaries ↔
      ∃ d, d ∈ (export_daily_health_metrics c caps today days_back).processed ∧
        ∃ v, c.get_stats_and_body d = Except.ok v ∧ v.isTruthy = true ∧ e = ⟨d, v⟩ :=
    fun e => daily_loop_ds c caps _ _ _ e
  constructor
  · intro b hb
    obtain ⟨d, hdproc, rfl, hc⟩ := (hbb b).mp hb
    refine ⟨rfl, ?_⟩
    obtain ⟨v, hok, htr, -⟩ := hc
    have hmem : (⟨d, v⟩ : Entry) ∈
        (export_daily_health_metrics c caps today days_back).frag.daily_summaries :=
      (hds _).mpr ⟨d, hdproc, v, hok, htr, rfl⟩
    exact List.mem_map.mpr ⟨⟨d, v⟩, hmem, rfl⟩
  · intro d hd
    constructor
    · intro hb
      obtain ⟨d2, hd2, heq, hc⟩ := (hbb _).mp hb
      have : d = d2 := by
        have := congrArg BBEntry.date heq
        simpa using this
      rwa [this]
    · intro hc
      exact (hbb _).mpr ⟨d, hd, rfl, hc⟩

/-- Witness for claim C5 at a concrete input: a 2-day window ending on
day 3. -/
theorem stride_dates_spec_witness :
    (0 : Int) ≤ 2 ∧
    (((export_daily_health_metrics noneClient [] 3 2).processed.head? =
        some ((3 : Int) - 2) ∧
      List.Chain' (fun a b => b = a + 2)
        (export_daily_health_metrics noneClient [] 3 2).processed) ∧
    ((export_fitness_metrics noneClient [] 3 2).processed.head? =
        some ((3 : Int) - 2) ∧
      List.Chain' (fun a b => b = a + 7)
        (export_fitness_metrics noneClient [] 3 2).processed) ∧
    ((export_specialized_health noneClient [] 3 2).processed.head? =
        some ((3 : Int) - 2) ∧
      List.Chain' (fun a b => b = a + 7)
        (export_specialized_health noneClient [] 3 2).processed)) :=
  ⟨by decide, stride_dates_spec noneClient [] 3 2 (by decide)⟩

/-- Witness for claim C6 at a concrete input: day 5 lies after a 2-day
window ending on day 3. -/
theorem samples_within_range_witness :
    ((5 : Int) < 3 - 2 ∨ (3 : Int) < 5) ∧
    ((5 : Int) ∉ (export_daily_health_metrics noneClient [] 3 2).frag.sample_dates ∧
     (5 : Int) ∉ (export_fitness_metrics noneClient [] 3 2).frag.sample_dates ∧
     (5 : Int) ∉ (export_specialized_health noneClient [] 3 2).frag.sample_dates) :=
  ⟨Or.inr (by decide), samples_within_range noneClient [] 3 2 5 (Or.inr (by decide))⟩

/-- A client that exposes every optional operation but whose calls all
raise. -/
def failingClient : Client :=
  { noneClient with hasMethod := fun _ => true }

/-- Witness for claim C9 at a concrete input. -/
theorem whole_period_null_keys_witness :
    (export_fitness_metrics failingClient (discover_api_methods failingClient)
        0 0).frag.weight_measurements = none ∧
    ((export_specialized_health failingClient (discover_api_methods failingClient)
        0 0).frag.womens_health).lookup "menstrual" = some none ∧
    ((export_specialized_health failingClient (discover_api_methods failingClient)
        0 0).frag.womens_health).lookup "pregnancy" = some none :=
  ⟨(whole_period_null_keys failingClient (discover_api_methods failingClient) 0 0).2.1
      "" rfl,
   (whole_period_null_keys failingClient (discover_api_methods failingClient) 0 0).2.2.1
      (by decide) "" rfl,
   (whole_period_null_keys failingClient (discover_api_methods failingClient) 0 0).2.2.2
      (by decide) "" rfl⟩

/-- A client whose combined daily summary reports a body-battery field. -/
def bbClient : Client :=
  { noneClient with
    get_stats_and_body := fun _ => Except.ok (Json.obj [("bodyBattery", Json.num 5)]) }

/-- Witness for claim C10 at a concrete input. -/
theorem body_battery_indicator_spec_witness :
    (⟨0, true⟩ : BBEntry) ∈
      (export_daily_health_metrics bbClient [] 0 0).frag.body_battery_indicators ∧
    (0 : Int) ∈
      (export_daily_health_metrics bbClient [] 0 0).frag.daily_summaries.map Entry.date := by
  have hmem : (⟨0, true⟩ : BBEntry) ∈
      (export_daily_health_metrics bbClient [] 0 0).frag.body_battery_indicators :=
    ((body_battery_indicator_spec bbClient [] 0 0).2 0 (by decide)).mpr
      ⟨Json.obj [("bodyBattery", Json.num 5)], rfl, rfl, by decide⟩
  exact ⟨hmem, ((body_battery_indicator_spec bbClient [] 0 0).1 _ hmem).2⟩
